import Mathlib

/-!
Shallow embedding of the FINE3300-2025-A1 repository (files
`mortgage.py` and `exchange_rates.py`) and proofs of the frozen claims.

The exchange-rate side (`exchange_rates.py`) is field arithmetic on
decimal values and is modelled over `ℚ` so every definition is
executable.  The mortgage side (`mortgage.py`) uses real exponents
(`x ** (1/m)`) and is modelled over `ℝ` with `Real.rpow`.

Python's `round(x, 2)` rounds to the nearest multiple of 1/100 with
ties going to the even cent; both modules model it with the
round-half-even integer rounding `rheQ` / `rheR` below.
-/

/-- Round-half-even over `ℚ`: the integer nearest to `y`, ties to the even
integer.  Models Python `round(y)` semantics on exact values. -/
def rheQ (y : ℚ) : ℤ :=
  if Int.fract y = 1/2 then 2 * ⌊y/2 + 1/2⌋ else ⌊y + 1/2⌋

/-- Python `round(x, 2)` over `ℚ`: round to two decimal places, half to even. -/
def round2Q (x : ℚ) : ℚ :=
  (rheQ (x * 100) : ℚ) / 100

/-- ASCII upper-casing of one character, modelling Python `str.upper` on the
ASCII range (the only range the program's currency codes use). -/
def upperChar (c : Char) : Char :=
  if 'a' ≤ c ∧ c ≤ 'z' then Char.ofNat (c.toNat - 32) else c

/-- Whitespace test used by Python `str.strip`. -/
def isSpaceChar (c : Char) : Bool :=
  c = ' ' || c = '\t' || c = '\n' || c = '\r'

/-- Drop leading and trailing whitespace from a character list. -/
def stripChars (cs : List Char) : List Char :=
  (((cs.dropWhile isSpaceChar).reverse).dropWhile isSpaceChar).reverse

/-- Python `str.strip()` on a string. -/
def strip (s : String) : String :=
  ⟨stripChars s.data⟩

/-- Python `str.upper()` on a string (ASCII letters). -/
def toUpperStr (s : String) : String :=
  ⟨s.data.map upperChar⟩

/-- Currency-code normalization from `ExchangeRates.convert`:
`(c or "").upper().strip()`.  A missing (`None`) argument becomes `""`. -/
def normCurrency (c : Option String) : String :=
  strip (toUpperStr (c.getD ""))

/-- Value of a digit character. -/
def digitVal (c : Char) : ℕ :=
  c.toNat - '0'.toNat

/-- Numeric value of a digit string read left to right. -/
def digitsVal (cs : List Char) : ℕ :=
  cs.foldl (fun a c => 10 * a + digitVal c) 0

/-- Parse an unsigned decimal literal (digits, optionally a point and more
digits; at least one digit overall), as accepted by Python `float`. -/
def parseUnsignedDecimal (cs : List Char) : Option ℚ :=
  let ip := cs.takeWhile (fun c => c.isDigit)
  let rest := cs.dropWhile (fun c => c.isDigit)
  match rest with
  | [] => if ip.isEmpty then none else some (digitsVal ip : ℚ)
  | '.' :: fp =>
      if fp.all (fun c => c.isDigit) && !(ip.isEmpty && fp.isEmpty) then
        some ((digitsVal ip : ℚ) + (digitsVal fp : ℚ) / (10 : ℚ) ^ fp.length)
      else none
  | _ => none

/-- Models Python `float(s)` on plain signed decimal literals (optional
sign, digits, optional fraction).  Exponent and inf/nan forms are not
modelled; the program's data cells are plain decimals. -/
def parseFloat (s : String) : Option ℚ :=
  match s.data with
  | '-' :: rest => (parseUnsignedDecimal rest).map (fun q => -q)
  | '+' :: rest => parseUnsignedDecimal rest
  | cs => parseUnsignedDecimal cs

/-- The error conditions raised by `exchange_rates.py` (each `raise` in the
source gets one constructor). -/
inductive FxError where
  | negativeAmount
  | badCurrency
  | noColumn
  | noNumeric
  | unsupportedPair
  deriving DecidableEq

/-- The rate CSV as seen by `ExchangeRates.__latest_usd_cad`: the header
field names, and for each data row the cell of the `USD/CAD` column
(`none` models `row.get("USD/CAD")` returning `None`).  Only that column
is ever read by the source. -/
structure CsvSource where
  fieldnames : List String
  usdCadCells : List (Option String)
  deriving DecidableEq

/-- One step of the row loop of `__latest_usd_cad`: strip the cell, skip
it when blank or unparsable, otherwise keep its numeric value. -/
def rowStep (acc : Option ℚ) (c : Option String) : Option ℚ :=
  let cell := strip (c.getD "")
  if cell.data.isEmpty then acc
  else
    match parseFloat cell with
    | some v => some v
    | none => acc

/-- The row loop of `__latest_usd_cad`: last parseable numeric value of the
`USD/CAD` column, in file order. -/
def lastRate (cells : List (Option String)) : Option ℚ :=
  cells.foldl rowStep none

/-- Specification-side reading of one row: the parsed numeric value of the
row's cell, `none` when the cell is blank or unparsable. -/
def parseCell (c : Option String) : Option ℚ :=
  let cell := strip (c.getD "")
  if cell.data.isEmpty then none else parseFloat cell

/-- The file-reading part of `ExchangeRates.__latest_usd_cad`: require the
`USD/CAD` column, scan the rows, fail when no numeric value was found. -/
def read_usd_cad (src : CsvSource) : Except FxError ℚ :=
  if "USD/CAD" ∈ src.fieldnames then
    match lastRate src.usdCadCells with
    | some r => Except.ok r
    | none => Except.error FxError.noNumeric
  else Except.error FxError.noColumn

/-- Model of ExchangeRates.__latest_usd_cad including its memoization check:
an already cached rate is returned without reading the source. -/
def latest_usd_cad (cached : Option ℚ) (src : CsvSource) : Except FxError ℚ :=
  match cached with
  | some r => Except.ok r
  | none => read_usd_cad src

/-- Model of ExchangeRates.convert, with the instance state (`__cached_usd_cad`)
passed and returned explicitly: the second component is the cached rate
after the call.  `src` is the content of the rate CSV at call time. -/
def convert (cached : Option ℚ) (src : CsvSource) (amount : ℚ)
    (from_currency to_currency : Option String) :
    Except FxError ℚ × Option ℚ :=
  if amount < 0 then (Except.error FxError.negativeAmount, cached)
  else
    let f := normCurrency from_currency
    let t := normCurrency to_currency
    if ¬(f = "CAD" ∨ f = "USD") ∨ ¬(t = "CAD" ∨ t = "USD") then
      (Except.error FxError.badCurrency, cached)
    else if f = t then (Except.ok (round2Q amount), cached)
    else
      match latest_usd_cad cached src with
      | Except.error e => (Except.error e, cached)
      | Except.ok rate =>
          if f = "USD" ∧ t = "CAD" then
            (Except.ok (round2Q (amount * rate + 1e-9)), some rate)
          else if f = "CAD" ∧ t = "USD" then
            (Except.ok (round2Q (amount / rate + 1e-9)), some rate)
          else (Except.error FxError.unsupportedPair, some rate)

/-- Round-half-even over `ℝ` (Python `round(y)` on exact values), used to
model the mortgage module's rounding. -/
noncomputable def rheR (y : ℝ) : ℤ :=
  if Int.fract y = 1/2 then 2 * ⌊y/2 + 1/2⌋ else ⌊y + 1/2⌋

/-- Python `round(x, 2)` over `ℝ`. -/
noncomputable def round2R (x : ℝ) : ℝ :=
  (rheR (x * 100) : ℝ) / 100

/-- The rounding lambda `r2` of `MortgagePayment.payments`:
`round(x + 1e-9, 2)`. -/
noncomputable def r2 (x : ℝ) : ℝ :=
  round2R (x + 1e-9)

/-- The validation performed by `MortgagePayment.set_rate_percent`. -/
def valid_rate (x : ℝ) : Prop := 0 ≤ x ∧ x ≤ 100

/-- The validation performed by `MortgagePayment.set_amort_years`. -/
def valid_years (n : ℕ) : Prop := 1 ≤ n ∧ n ≤ 100

/-- Model of MortgagePayment._pva: present value of an annuity-immediate. -/
noncomputable def pva (r : ℝ) (n : ℕ) : ℝ :=
  if r = 0 then (n : ℝ) else (1 - (1 + r) ^ (-(n : ℤ))) / r

/-- Model of MortgagePayment._semi_to_effective_annual. -/
noncomputable def semi_to_effective_annual (j : ℝ) : ℝ :=
  (1 + j / 2) ^ 2 - 1

/-- Model of MortgagePayment._effective_to_periodic. -/
noncomputable def effective_to_periodic (ear : ℝ) (m : ℕ) : ℝ :=
  (1 + ear) ^ ((1 : ℝ) / m) - 1

/-- Model of MortgagePayment._payment_given_frequency, with the instance fields
(`__quoted_rate_pct`, `__amort_years`) passed explicitly. -/
noncomputable def payment_given_frequency
    (rate_pct : ℝ) (years : ℕ) (principal : ℝ) (m : ℕ) : ℝ :=
  principal /
    pva (effective_to_periodic (semi_to_effective_annual (rate_pct / 100)) m)
      (m * years)

/-- The error raised by `MortgagePayment.payments` for a negative principal. -/
inductive MortgageError where
  | negativePrincipal
  deriving DecidableEq

/-- Model of MortgagePayment.payments: the six rounded amounts in fixed order
(monthly, semi-monthly, bi-weekly, weekly, rapid-bi-weekly, rapid-weekly). -/
noncomputable def payments (rate_pct : ℝ) (years : ℕ) (principal : ℝ) :
    Except MortgageError (ℝ × ℝ × ℝ × ℝ × ℝ × ℝ) :=
  if principal < 0 then Except.error MortgageError.negativePrincipal
  else
    let monthly := payment_given_frequency rate_pct years principal 12
    let semi_monthly := payment_given_frequency rate_pct years principal 24
    let bi_weekly := payment_given_frequency rate_pct years principal 26
    let weekly := payment_given_frequency rate_pct years principal 52
    Except.ok
      (r2 monthly, r2 semi_monthly, r2 bi_weekly, r2 weekly,
        r2 (monthly / 2), r2 (monthly / 4))

theorem tie_eq_floor_add_half {y : ℝ} (h : Int.fract y = 1/2) :
    y = (⌊y⌋ : ℝ) + 1/2 := by
  have hf := Int.floor_add_fract y
  rw [h] at hf
  linarith

theorem rheR_eq_of_bounds (y : ℝ) (c : ℤ) (h1 : (c : ℝ) - 1/2 < y)
    (h2 : y < (c : ℝ) + 1/2) : rheR y = c := by
  rw [rheR]
  by_cases h : Int.fract y = 1/2
  · exfalso
    have hy := tie_eq_floor_add_half h
    have hz1 : c - 1 < ⌊y⌋ := by
      have hr : (c : ℝ) - 1 < (⌊y⌋ : ℝ) := by rw [hy] at h1; linarith
      exact_mod_cast hr
    have hz2 : ⌊y⌋ < c := by
      have hr : (⌊y⌋ : ℝ) < (c : ℝ) := by rw [hy] at h2; linarith
      exact_mod_cast hr
    omega
  · rw [if_neg h, Int.floor_eq_iff]
    exact ⟨by linarith, by linarith⟩

theorem r2_eq_of_bounds (x : ℝ) (c : ℤ)
    (h1 : (c : ℝ) - 1/2 < (x + 1e-9) * 100)
    (h2 : (x + 1e-9) * 100 < (c : ℝ) + 1/2) : r2 x = (c : ℝ) / 100 := by
  rw [r2, round2R, rheR_eq_of_bounds _ c h1 h2]

theorem tie_eq_floor_add_halfQ {y : ℚ} (h : Int.fract y = 1/2) :
    y = (⌊y⌋ : ℚ) + 1/2 := by
  have hf := Int.floor_add_fract y
  rw [h] at hf
  linarith

theorem rheQ_eq_of_bounds (y : ℚ) (c : ℤ) (h1 : (c : ℚ) - 1/2 < y)
    (h2 : y < (c : ℚ) + 1/2) : rheQ y = c := by
  rw [rheQ]
  by_cases h : Int.fract y = 1/2
  · exfalso
    have hy := tie_eq_floor_add_halfQ h
    have hz1 : c - 1 < ⌊y⌋ := by
      have hr : (c : ℚ) - 1 < (⌊y⌋ : ℚ) := by rw [hy] at h1; linarith
      exact_mod_cast hr
    have hz2 : ⌊y⌋ < c := by
      have hr : (⌊y⌋ : ℚ) < (c : ℚ) := by rw [hy] at h2; linarith
      exact_mod_cast hr
    omega
  · rw [if_neg h, Int.floor_eq_iff]
    exact ⟨by linarith, by linarith⟩

theorem floor_half_add (k : ℤ) :
    2 * ⌊(k : ℝ)/2 + 3/4⌋ = k ∨ 2 * ⌊(k : ℝ)/2 + 3/4⌋ = k + 1 := by
  rcases Int.even_or_odd k with ⟨a, ha⟩ | ⟨a, ha⟩
  · left
    have he : (k : ℝ)/2 + 3/4 = (a : ℝ) + 3/4 := by
      rw [ha]; push_cast; ring
    rw [he, Int.floor_int_add]
    have h34 : ⌊(3/4 : ℝ)⌋ = 0 := by norm_num [Int.floor_eq_iff]
    omega
  · right
    have he : (k : ℝ)/2 + 3/4 = (a : ℝ) + 5/4 := by
      rw [ha]; push_cast; ring
    rw [he, Int.floor_int_add]
    have h54 : ⌊(5/4 : ℝ)⌋ = 1 := by norm_num [Int.floor_eq_iff]
    omega

theorem rheR_le_floor (y : ℝ) : rheR y ≤ ⌊y + 1/2⌋ := by
  rw [rheR]
  by_cases h : Int.fract y = 1/2
  · rw [if_pos h]
    have hy := tie_eq_floor_add_half h
    have he : y/2 + 1/2 = (⌊y⌋ : ℝ)/2 + 3/4 := by linarith
    have hfl : ⌊y + 1/2⌋ = ⌊y⌋ + 1 := by
      have hc : y + 1/2 = ((⌊y⌋ + 1 : ℤ) : ℝ) := by push_cast; linarith
      rw [hc, Int.floor_intCast]
    rw [he, hfl]
    rcases floor_half_add ⌊y⌋ with h2 | h2 <;> omega
  · rw [if_neg h]

theorem rheR_tie_ge {y : ℝ} (h : Int.fract y = 1/2) : ⌊y⌋ ≤ rheR y := by
  rw [rheR, if_pos h]
  have hy := tie_eq_floor_add_half h
  have he : y/2 + 1/2 = (⌊y⌋ : ℝ)/2 + 3/4 := by linarith
  rw [he]
  rcases floor_half_add ⌊y⌋ with h2 | h2 <;> omega

theorem rheR_mono {x y : ℝ} (h : x ≤ y) : rheR x ≤ rheR y := by
  rcases eq_or_lt_of_le h with rfl | hlt
  · exact le_rfl
  by_cases hy : Int.fract y = 1/2
  · have hyv := tie_eq_floor_add_half hy
    have h1 : rheR x ≤ ⌊x + 1/2⌋ := rheR_le_floor x
    have h2 : ⌊x + 1/2⌋ ≤ ⌊y⌋ := by
      have hxl : x + 1/2 < ((⌊y⌋ + 1 : ℤ) : ℝ) := by push_cast; linarith
      have := Int.floor_lt.2 hxl
      omega
    have h3 : ⌊y⌋ ≤ rheR y := rheR_tie_ge hy
    omega
  · have hry : rheR y = ⌊y + 1/2⌋ := by rw [rheR, if_neg hy]
    rw [hry]
    exact le_trans (rheR_le_floor x) (Int.floor_le_floor (by linarith))

theorem r2_mono {x y : ℝ} (h : x ≤ y) : r2 x ≤ r2 y := by
  rw [r2, r2, round2R, round2R]
  have hm : rheR ((x + 1e-9) * 100) ≤ rheR ((y + 1e-9) * 100) :=
    rheR_mono (by linarith)
  have hc : (rheR ((x + 1e-9) * 100) : ℝ) ≤ (rheR ((y + 1e-9) * 100) : ℝ) := by
    exact_mod_cast hm
  linarith

theorem rpow_root_bounds (A : ℝ) (m : ℕ) (hm : 0 < m) (hA : 0 < A) (L U : ℝ)
    (hU0 : 0 ≤ 1 + U)
    (hLm : (1 + L) ^ m < A) (hUm : A < (1 + U) ^ m) :
    L < A ^ ((1 : ℝ)/m) - 1 ∧ A ^ ((1 : ℝ)/m) - 1 < U := by
  have hx0 : 0 < A ^ ((1 : ℝ)/m) := Real.rpow_pos_of_pos hA _
  have hinv : (1 : ℝ)/m * m = 1 := by field_simp
  have hxm : (A ^ ((1 : ℝ)/m)) ^ m = A := by
    rw [← Real.rpow_natCast (A ^ ((1 : ℝ)/m)) m, ← Real.rpow_mul hA.le, hinv,
      Real.rpow_one]
  constructor
  · by_contra hcon
    push_neg at hcon
    have h1 : A ^ ((1 : ℝ)/m) ≤ 1 + L := by linarith
    have h2 : (A ^ ((1 : ℝ)/m)) ^ m ≤ (1 + L) ^ m := pow_le_pow_left₀ hx0.le h1 m
    rw [hxm] at h2
    linarith
  · have h2 : (A ^ ((1 : ℝ)/m)) ^ m < (1 + U) ^ m := by rw [hxm]; exact hUm
    have h3 : A ^ ((1 : ℝ)/m) < 1 + U := lt_of_pow_lt_pow_left₀ m hU0 h2
    linarith

theorem payment_formula_scenario (m : ℕ) (hm : 0 < m) :
    payment_given_frequency (11/2) 25 100000 m
      = 100000 * ((1.05575625 : ℝ) ^ ((1 : ℝ)/m) - 1)
          / (1 - ((1.05575625 : ℝ) ^ (25 : ℕ))⁻¹) := by
  have hear : semi_to_effective_annual ((11/2)/100) = (1.05575625 : ℝ) - 1 := by
    rw [semi_to_effective_annual]; norm_num
  have hx1 : 1 < (1.05575625 : ℝ) ^ ((1 : ℝ)/m) := by
    rw [Real.one_lt_rpow_iff_of_pos (by norm_num)]
    left
    exact ⟨by norm_num, by positivity⟩
  have hr : effective_to_periodic (semi_to_effective_annual ((11/2)/100)) m
      = (1.05575625 : ℝ) ^ ((1 : ℝ)/m) - 1 := by
    rw [effective_to_periodic, hear]
    norm_num
  have hrne : (1.05575625 : ℝ) ^ ((1 : ℝ)/m) - 1 ≠ 0 := by linarith
  have hinv : (1 : ℝ)/m * m = 1 := by field_simp
  have hxm : ((1.05575625 : ℝ) ^ ((1 : ℝ)/m)) ^ m = 1.05575625 := by
    rw [← Real.rpow_natCast ((1.05575625 : ℝ) ^ ((1 : ℝ)/m)) m,
      ← Real.rpow_mul (by norm_num), hinv, Real.rpow_one]
  rw [payment_given_frequency, hr, pva, if_neg hrne]
  have hbase : 1 + ((1.05575625 : ℝ) ^ ((1 : ℝ)/m) - 1)
      = (1.05575625 : ℝ) ^ ((1 : ℝ)/m) := by ring
  rw [hbase]
  have hzp : ((1.05575625 : ℝ) ^ ((1 : ℝ)/m)) ^ (-(((m * 25 : ℕ)) : ℤ))
      = ((1.05575625 : ℝ) ^ (25 : ℕ))⁻¹ := by
    rw [zpow_neg, zpow_natCast, pow_mul, hxm]
  rw [hzp, div_div_eq_mul_div]

theorem pgf_bounds (m : ℕ) (hm : 0 < m) (L U lo hi : ℝ)
    (hU0 : 0 ≤ 1 + U)
    (hLm : (1 + L) ^ m < 1.05575625) (hUm : (1.05575625 : ℝ) < (1 + U) ^ m)
    (hlo : lo ≤ 100000 * L / (1 - ((1.05575625 : ℝ) ^ (25 : ℕ))⁻¹))
    (hhi : 100000 * U / (1 - ((1.05575625 : ℝ) ^ (25 : ℕ))⁻¹) ≤ hi) :
    lo < payment_given_frequency (11/2) 25 100000 m ∧
      payment_given_frequency (11/2) 25 100000 m < hi := by
  obtain ⟨hL, hU⟩ :=
    rpow_root_bounds 1.05575625 m hm (by norm_num) L U hU0 hLm hUm
  have hD : (0 : ℝ) < 1 - ((1.05575625 : ℝ) ^ (25 : ℕ))⁻¹ := by norm_num
  rw [payment_formula_scenario m hm]
  constructor
  · refine lt_of_le_of_lt hlo ?_
    rw [div_lt_div_iff₀ hD hD]
    nlinarith
  · refine lt_of_lt_of_le ?_ hhi
    rw [div_lt_div_iff₀ hD hD]
    nlinarith

theorem ear_nonneg {j : ℝ} (hj : 0 ≤ j) : 0 ≤ semi_to_effective_annual j := by
  rw [semi_to_effective_annual]
  nlinarith

theorem etp_nonneg {ear : ℝ} (hear : 0 ≤ ear) (m : ℕ) :
    0 ≤ effective_to_periodic ear m := by
  rw [effective_to_periodic]
  have h1 : (1 : ℝ) = (1 : ℝ) ^ ((1 : ℝ)/m) := (Real.one_rpow _).symm
  have h2 : (1 : ℝ) ^ ((1 : ℝ)/m) ≤ (1 + ear) ^ ((1 : ℝ)/m) :=
    Real.rpow_le_rpow (by norm_num) (by linarith) (by positivity)
  linarith [h1 ▸ h2]

theorem pva_pos {r : ℝ} {n : ℕ} (hr : 0 ≤ r) (hn : 0 < n) : 0 < pva r n := by
  rw [pva]
  by_cases h : r = 0
  · rw [if_pos h]
    exact_mod_cast hn
  · rw [if_neg h]
    have hr0 : 0 < r := lt_of_le_of_ne hr (Ne.symm h)
    have h1 : (1 : ℝ) < 1 + r := by linarith
    have hpow : (1 : ℝ) < (1 + r) ^ n := one_lt_pow₀ h1 hn.ne'
    have hz : (1 + r) ^ (-(n : ℤ)) = ((1 + r) ^ n)⁻¹ := by
      rw [zpow_neg, zpow_natCast]
    have hinv : ((1 + r) ^ n)⁻¹ < 1 := inv_lt_one_of_one_lt₀ hpow
    rw [hz]
    apply div_pos (by linarith) hr0

theorem pgf_mono {rate : ℝ} {years : ℕ} {p1 p2 : ℝ} (m : ℕ)
    (hrate : 0 ≤ rate) (hy : 1 ≤ years) (hm : 0 < m) (hp : p1 ≤ p2) :
    payment_given_frequency rate years p1 m
      ≤ payment_given_frequency rate years p2 m := by
  rw [payment_given_frequency, payment_given_frequency]
  have hr : 0 ≤ effective_to_periodic (semi_to_effective_annual (rate/100)) m :=
    etp_nonneg (ear_nonneg (by linarith)) m
  have hpva : 0 < pva (effective_to_periodic (semi_to_effective_annual (rate/100)) m)
      (m * years) := pva_pos hr (by positivity)
  gcongr

theorem pgf_zero_rate (years : ℕ) (p : ℝ) (m : ℕ) :
    payment_given_frequency 0 years p m = p / ((m * years : ℕ) : ℝ) := by
  rw [payment_given_frequency]
  have hear : semi_to_effective_annual ((0 : ℝ)/100) = 0 := by
    rw [semi_to_effective_annual]; norm_num
  have hetp : effective_to_periodic 0 m = 0 := by
    rw [effective_to_periodic]
    norm_num
  rw [hear, hetp, pva, if_pos rfl]

theorem payments_ok (rate : ℝ) (years : ℕ) (p : ℝ) (hp : 0 ≤ p) :
    payments rate years p
      = Except.ok
          (r2 (payment_given_frequency rate years p 12),
            r2 (payment_given_frequency rate years p 24),
            r2 (payment_given_frequency rate years p 26),
            r2 (payment_given_frequency rate years p 52),
            r2 (payment_given_frequency rate years p 12 / 2),
            r2 (payment_given_frequency rate years p 12 / 4)) := by
  rw [payments, if_neg (not_lt.2 hp)]

theorem payments_zero_rate_300 :
    payments 0 25 300 = Except.ok (1, 0.5, 0.46, 0.23, 0.5, 0.25) := by
  rw [payments_ok 0 25 300 (by norm_num)]
  rw [pgf_zero_rate, pgf_zero_rate, pgf_zero_rate, pgf_zero_rate]
  have e1 : r2 ((300 : ℝ) / ((12 * 25 : ℕ) : ℝ)) = ((100 : ℤ) : ℝ)/100 :=
    r2_eq_of_bounds _ 100 (by norm_num) (by norm_num)
  have e2 : r2 ((300 : ℝ) / ((24 * 25 : ℕ) : ℝ)) = ((50 : ℤ) : ℝ)/100 :=
    r2_eq_of_bounds _ 50 (by norm_num) (by norm_num)
  have e3 : r2 ((300 : ℝ) / ((26 * 25 : ℕ) : ℝ)) = ((46 : ℤ) : ℝ)/100 :=
    r2_eq_of_bounds _ 46 (by norm_num) (by norm_num)
  have e4 : r2 ((300 : ℝ) / ((52 * 25 : ℕ) : ℝ)) = ((23 : ℤ) : ℝ)/100 :=
    r2_eq_of_bounds _ 23 (by norm_num) (by norm_num)
  have e5 : r2 ((300 : ℝ) / ((12 * 25 : ℕ) : ℝ) / 2) = ((50 : ℤ) : ℝ)/100 :=
    r2_eq_of_bounds _ 50 (by norm_num) (by norm_num)
  have e6 : r2 ((300 : ℝ) / ((12 * 25 : ℕ) : ℝ) / 4) = ((25 : ℤ) : ℝ)/100 :=
    r2_eq_of_bounds _ 25 (by norm_num) (by norm_num)
  rw [e1, e2, e3, e4, e5, e6]
  norm_num

theorem payments_zero_rate_300_0001 :
    payments 0 25 (300 + 1/10000) = Except.ok (1, 0.5, 0.46, 0.23, 0.5, 0.25) := by
  rw [payments_ok 0 25 (300 + 1/10000) (by norm_num)]
  rw [pgf_zero_rate, pgf_zero_rate, pgf_zero_rate, pgf_zero_rate]
  have e1 : r2 (((300 : ℝ) + 1/10000) / ((12 * 25 : ℕ) : ℝ)) = ((100 : ℤ) : ℝ)/100 :=
    r2_eq_of_bounds _ 100 (by norm_num) (by norm_num)
  have e2 : r2 (((300 : ℝ) + 1/10000) / ((24 * 25 : ℕ) : ℝ)) = ((50 : ℤ) : ℝ)/100 :=
    r2_eq_of_bounds _ 50 (by norm_num) (by norm_num)
  have e3 : r2 (((300 : ℝ) + 1/10000) / ((26 * 25 : ℕ) : ℝ)) = ((46 : ℤ) : ℝ)/100 :=
    r2_eq_of_bounds _ 46 (by norm_num) (by norm_num)
  have e4 : r2 (((300 : ℝ) + 1/10000) / ((52 * 25 : ℕ) : ℝ)) = ((23 : ℤ) : ℝ)/100 :=
    r2_eq_of_bounds _ 23 (by norm_num) (by norm_num)
  have e5 : r2 (((300 : ℝ) + 1/10000) / ((12 * 25 : ℕ) : ℝ) / 2) = ((50 : ℤ) : ℝ)/100 :=
    r2_eq_of_bounds _ 50 (by norm_num) (by norm_num)
  have e6 : r2 (((300 : ℝ) + 1/10000) / ((12 * 25 : ℕ) : ℝ) / 4) = ((25 : ℤ) : ℝ)/100 :=
    r2_eq_of_bounds _ 25 (by norm_num) (by norm_num)
  rw [e1, e2, e3, e4, e5, e6]
  norm_num

theorem payments_zero_rate_400 :
    payments 0 25 400 = Except.ok (1.33, 0.67, 0.62, 0.31, 0.67, 0.33) := by
  rw [payments_ok 0 25 400 (by norm_num)]
  rw [pgf_zero_rate, pgf_zero_rate, pgf_zero_rate, pgf_zero_rate]
  have e1 : r2 ((400 : ℝ) / ((12 * 25 : ℕ) : ℝ)) = ((133 : ℤ) : ℝ)/100 :=
    r2_eq_of_bounds _ 133 (by norm_num) (by norm_num)
  have e2 : r2 ((400 : ℝ) / ((24 * 25 : ℕ) : ℝ)) = ((67 : ℤ) : ℝ)/100 :=
    r2_eq_of_bounds _ 67 (by norm_num) (by norm_num)
  have e3 : r2 ((400 : ℝ) / ((26 * 25 : ℕ) : ℝ)) = ((62 : ℤ) : ℝ)/100 :=
    r2_eq_of_bounds _ 62 (by norm_num) (by norm_num)
  have e4 : r2 ((400 : ℝ) / ((52 * 25 : ℕ) : ℝ)) = ((31 : ℤ) : ℝ)/100 :=
    r2_eq_of_bounds _ 31 (by norm_num) (by norm_num)
  have e5 : r2 ((400 : ℝ) / ((12 * 25 : ℕ) : ℝ) / 2) = ((67 : ℤ) : ℝ)/100 :=
    r2_eq_of_bounds _ 67 (by norm_num) (by norm_num)
  have e6 : r2 ((400 : ℝ) / ((12 * 25 : ℕ) : ℝ) / 4) = ((33 : ℤ) : ℝ)/100 :=
    r2_eq_of_bounds _ 33 (by norm_num) (by norm_num)
  rw [e1, e2, e3, e4, e5, e6]
  norm_num

theorem payments_zero_rate_small :
    payments 0 25 (12/5) = Except.ok (0.01, 0, 0, 0, 0, 0) := by
  rw [payments_ok 0 25 (12/5) (by norm_num)]
  rw [pgf_zero_rate, pgf_zero_rate, pgf_zero_rate, pgf_zero_rate]
  have e1 : r2 ((12/5 : ℝ) / ((12 * 25 : ℕ) : ℝ)) = ((1 : ℤ) : ℝ)/100 :=
    r2_eq_of_bounds _ 1 (by norm_num) (by norm_num)
  have e2 : r2 ((12/5 : ℝ) / ((24 * 25 : ℕ) : ℝ)) = ((0 : ℤ) : ℝ)/100 :=
    r2_eq_of_bounds _ 0 (by norm_num) (by norm_num)
  have e3 : r2 ((12/5 : ℝ) / ((26 * 25 : ℕ) : ℝ)) = ((0 : ℤ) : ℝ)/100 :=
    r2_eq_of_bounds _ 0 (by norm_num) (by norm_num)
  have e4 : r2 ((12/5 : ℝ) / ((52 * 25 : ℕ) : ℝ)) = ((0 : ℤ) : ℝ)/100 :=
    r2_eq_of_bounds _ 0 (by norm_num) (by norm_num)
  have e5 : r2 ((12/5 : ℝ) / ((12 * 25 : ℕ) : ℝ) / 2) = ((0 : ℤ) : ℝ)/100 :=
    r2_eq_of_bounds _ 0 (by norm_num) (by norm_num)
  have e6 : r2 ((12/5 : ℝ) / ((12 * 25 : ℕ) : ℝ) / 4) = ((0 : ℤ) : ℝ)/100 :=
    r2_eq_of_bounds _ 0 (by norm_num) (by norm_num)
  rw [e1, e2, e3, e4, e5, e6]
  norm_num

theorem rowStep_eq (acc : Option ℚ) (c : Option String) :
    rowStep acc c = (parseCell c).elim acc some := by
  rw [rowStep, parseCell]
  by_cases h : (strip (c.getD "")).data.isEmpty
  · simp [h]
  · simp only [h, Bool.false_eq_true, ite_false]
    cases hp : parseFloat (strip (c.getD "")) <;> simp [hp]

theorem foldl_rowStep (cells : List (Option String)) :
    ∀ acc : Option ℚ,
      cells.foldl rowStep acc
        = ((cells.filterMap parseCell).getLast?).elim acc some := by
  induction cells with
  | nil => intro acc; simp
  | cons c cs ih =>
      intro acc
      rw [List.foldl_cons, ih (rowStep acc c), List.filterMap_cons]
      cases hp : parseCell c with
      | none => rw [rowStep_eq, hp]; rfl
      | some v =>
          rw [rowStep_eq, hp]
          cases hL : cs.filterMap parseCell with
          | nil => simp
          | cons w ws =>
              have hx : ∃ x, (w :: ws).getLast? = some x := by
                cases hwl : (w :: ws).getLast? with
                | none => exact absurd (List.getLast?_eq_none_iff.1 hwl) (by simp)
                | some x => exact ⟨x, rfl⟩
              obtain ⟨x, hx⟩ := hx
              rw [List.getLast?_cons_cons, hx]
              rfl

theorem lastRate_eq_getLast (cells : List (Option String)) :
    lastRate cells = (cells.filterMap parseCell).getLast? := by
  rw [lastRate, foldl_rowStep]
  cases (cells.filterMap parseCell).getLast? <;> rfl

set_option maxHeartbeats 1000000 in
/-- C1: with quoted rate 5.5 (semi-annual compounding), amortization 25
years and principal 100000, `payments` returns exactly
(610.39, 304.85, 281.38, 140.61, 305.20, 152.60), in the fixed order
(monthly, semi-monthly, bi-weekly, weekly, rapid-bi-weekly, rapid-weekly),
each base amount being principal / PVA(r, n) with
EAR = (1 + j/2)^2 - 1, r = (1 + EAR)^(1/m) - 1, n = 25 m. -/
theorem c1_payments_scenario :
    payments (11/2) 25 100000
      = Except.ok (610.39, 304.85, 281.38, 140.61, 305.20, 152.60) := by
  obtain ⟨hM1, hM2⟩ := pgf_bounds 12 (by norm_num)
    0.00453168171 0.00453168172 610.3914 610.3916
    (by norm_num) (by norm_num) (by norm_num) (by norm_num) (by norm_num)
  obtain ⟨hS1, hS2⟩ := pgf_bounds 24 (by norm_num)
    0.00226327964 0.00226327965 304.8507 304.8509
    (by norm_num) (by norm_num) (by norm_num) (by norm_num) (by norm_num)
  obtain ⟨hB1, hB2⟩ := pgf_bounds 26 (by norm_num)
    0.00208899949 0.00208899950 281.3762 281.3764
    (by norm_num) (by norm_num) (by norm_num) (by norm_num) (by norm_num)
  obtain ⟨hW1, hW2⟩ := pgf_bounds 52 (by norm_num)
    0.00104395482 0.00104395483 140.6147 140.6148
    (by norm_num) (by norm_num) (by norm_num) (by norm_num) (by norm_num)
  have e1 : r2 (payment_given_frequency (11/2) 25 100000 12) = ((61039 : ℤ) : ℝ)/100 :=
    r2_eq_of_bounds _ 61039 (by push_cast; linarith) (by push_cast; linarith)
  have e2 : r2 (payment_given_frequency (11/2) 25 100000 24) = ((30485 : ℤ) : ℝ)/100 :=
    r2_eq_of_bounds _ 30485 (by push_cast; linarith) (by push_cast; linarith)
  have e3 : r2 (payment_given_frequency (11/2) 25 100000 26) = ((28138 : ℤ) : ℝ)/100 :=
    r2_eq_of_bounds _ 28138 (by push_cast; linarith) (by push_cast; linarith)
  have e4 : r2 (payment_given_frequency (11/2) 25 100000 52) = ((14061 : ℤ) : ℝ)/100 :=
    r2_eq_of_bounds _ 14061 (by push_cast; linarith) (by push_cast; linarith)
  have e5 : r2 (payment_given_frequency (11/2) 25 100000 12 / 2) = ((30520 : ℤ) : ℝ)/100 :=
    r2_eq_of_bounds _ 30520 (by push_cast; linarith) (by push_cast; linarith)
  have e6 : r2 (payment_given_frequency (11/2) 25 100000 12 / 4) = ((15260 : ℤ) : ℝ)/100 :=
    r2_eq_of_bounds _ 15260 (by push_cast; linarith) (by push_cast; linarith)
  rw [payments_ok (11/2) 25 100000 (by norm_num)]
  rw [e1, e2, e3, e4, e5, e6]
  norm_num

/-- C9: for a zero principal, `payments` accepts the input (0 is
non-negative) and returns six exactly-zero amounts, for every valid rate
and term: rounding 0 + 1e-9 to two decimals still yields 0.00. -/
theorem c9_zero_principal (rate : ℝ) (years : ℕ)
    (hr : valid_rate rate) (hy : valid_years years) :
    payments rate years 0 = Except.ok (0, 0, 0, 0, 0, 0) := by
  have hz : ∀ m : ℕ, payment_given_frequency rate years 0 m = 0 := by
    intro m
    rw [payment_given_frequency]
    exact zero_div _
  have h0 : r2 0 = 0 := by
    have := r2_eq_of_bounds 0 0 (by norm_num) (by norm_num)
    simpa using this
  rw [payments_ok rate years 0 le_rfl]
  simp only [hz]
  rw [zero_div, zero_div, h0]

theorem c9_witness :
    payments (11/2) 25 0 = Except.ok (0, 0, 0, 0, 0, 0) :=
  c9_zero_principal (11/2) 25 ⟨by norm_num, by norm_num⟩ ⟨by norm_num, by norm_num⟩

/-- C7 counterexample: at rate 0, 25 years, principal 2.4 the returned
monthly amount is 0.01 and the returned rapid-bi-weekly amount is 0, yet
round(monthly/2 + 1e-9, 2) = 0.01: the rapid amounts are NOT computed from
the returned (rounded) monthly payment. -/
theorem c7_counterexample :
    payments 0 25 (12/5) = Except.ok (0.01, 0, 0, 0, 0, 0) ∧
      r2 ((0.01 : ℝ)/2) = 0.01 ∧ ((0 : ℝ) ≠ 0.01) := by
  refine ⟨payments_zero_rate_small, ?_, by norm_num⟩
  have := r2_eq_of_bounds ((0.01 : ℝ)/2) 1 (by norm_num) (by norm_num)
  rw [this]
  norm_num

/-- C7 amended: the rapid amounts are derived from the unrounded monthly
amount by the fixed divisors 2 and 4 (not by the annuity formula at their
own frequencies, and not from the rounded monthly):
rapid-bi-weekly = round(raw_monthly/2 + 1e-9, 2) and
rapid-weekly = round(raw_monthly/4 + 1e-9, 2), where raw_monthly is
principal / PVA(r, n) at m = 12. -/
theorem c7_amended_rapid (rate : ℝ) (years : ℕ) (p : ℝ) (hp : 0 ≤ p)
    (t : ℝ × ℝ × ℝ × ℝ × ℝ × ℝ) (ht : payments rate years p = Except.ok t) :
    t.2.2.2.2.1 = r2 (payment_given_frequency rate years p 12 / 2) ∧
      t.2.2.2.2.2 = r2 (payment_given_frequency rate years p 12 / 4) := by
  rw [payments_ok rate years p hp] at ht
  have h := Except.ok.inj ht
  rw [← h]
  exact ⟨rfl, rfl⟩

theorem c7_amended_witness :
    ((0.01, 0, 0, 0, 0, 0) : ℝ × ℝ × ℝ × ℝ × ℝ × ℝ).2.2.2.2.1
        = r2 (payment_given_frequency 0 25 (12/5) 12 / 2) ∧
      ((0.01, 0, 0, 0, 0, 0) : ℝ × ℝ × ℝ × ℝ × ℝ × ℝ).2.2.2.2.2
        = r2 (payment_given_frequency 0 25 (12/5) 12 / 4) :=
  c7_amended_rapid 0 25 (12/5) (by norm_num) _ payments_zero_rate_small

/-- C8 counterexample: with rate 0 and 25 years, `payments` returns the
same six amounts for the distinct principals 300 and 300.0001, so a
strictly larger principal does not strictly increase every returned
amount. -/
theorem c8_counterexample :
    (300 : ℝ) < 300 + 1/10000 ∧
      payments 0 25 300 = payments 0 25 (300 + 1/10000) := by
  refine ⟨by norm_num, ?_⟩
  rw [payments_zero_rate_300, payments_zero_rate_300_0001]

/-- C8 amended: holding a valid rate and term fixed, a greater principal
yields componentwise greater-or-equal returned amounts (the unrounded
amounts grow strictly, but rounding to cents can make the returned
amounts equal). -/
theorem c8_amended_monotone (rate : ℝ) (years : ℕ) (p1 p2 : ℝ)
    (hr : valid_rate rate) (hy : valid_years years)
    (hp1 : 0 ≤ p1) (hp : p1 ≤ p2)
    (t1 t2 : ℝ × ℝ × ℝ × ℝ × ℝ × ℝ)
    (h1 : payments rate years p1 = Except.ok t1)
    (h2 : payments rate years p2 = Except.ok t2) :
    t1.1 ≤ t2.1 ∧ t1.2.1 ≤ t2.2.1 ∧ t1.2.2.1 ≤ t2.2.2.1 ∧
      t1.2.2.2.1 ≤ t2.2.2.2.1 ∧ t1.2.2.2.2.1 ≤ t2.2.2.2.2.1 ∧
      t1.2.2.2.2.2 ≤ t2.2.2.2.2.2 := by
  rw [payments_ok rate years p1 hp1] at h1
  rw [payments_ok rate years p2 (le_trans hp1 hp)] at h2
  obtain ⟨hr0, _⟩ := hr
  obtain ⟨hy1, _⟩ := hy
  rw [← Except.ok.inj h1, ← Except.ok.inj h2]
  have m12 := pgf_mono 12 hr0 hy1 (by norm_num) hp
  have m24 := pgf_mono 24 hr0 hy1 (by norm_num) hp
  have m26 := pgf_mono 26 hr0 hy1 (by norm_num) hp
  have m52 := pgf_mono 52 hr0 hy1 (by norm_num) hp
  exact ⟨r2_mono m12, r2_mono m24, r2_mono m26, r2_mono m52,
    r2_mono (by linarith), r2_mono (by linarith)⟩

theorem c8_amended_witness :
    ((1, 0.5, 0.46, 0.23, 0.5, 0.25) : ℝ × ℝ × ℝ × ℝ × ℝ × ℝ).1
        ≤ ((1.33, 0.67, 0.62, 0.31, 0.67, 0.33) : ℝ × ℝ × ℝ × ℝ × ℝ × ℝ).1 ∧
      ((1, 0.5, 0.46, 0.23, 0.5, 0.25) : ℝ × ℝ × ℝ × ℝ × ℝ × ℝ).2.1
        ≤ ((1.33, 0.67, 0.62, 0.31, 0.67, 0.33) : ℝ × ℝ × ℝ × ℝ × ℝ × ℝ).2.1 ∧
      ((1, 0.5, 0.46, 0.23, 0.5, 0.25) : ℝ × ℝ × ℝ × ℝ × ℝ × ℝ).2.2.1
        ≤ ((1.33, 0.67, 0.62, 0.31, 0.67, 0.33) : ℝ × ℝ × ℝ × ℝ × ℝ × ℝ).2.2.1 ∧
      ((1, 0.5, 0.46, 0.23, 0.5, 0.25) : ℝ × ℝ × ℝ × ℝ × ℝ × ℝ).2.2.2.1
        ≤ ((1.33, 0.67, 0.62, 0.31, 0.67, 0.33) : ℝ × ℝ × ℝ × ℝ × ℝ × ℝ).2.2.2.1 ∧
      ((1, 0.5, 0.46, 0.23, 0.5, 0.25) : ℝ × ℝ × ℝ × ℝ × ℝ × ℝ).2.2.2.2.1
        ≤ ((1.33, 0.67, 0.62, 0.31, 0.67, 0.33) : ℝ × ℝ × ℝ × ℝ × ℝ × ℝ).2.2.2.2.1 ∧
      ((1, 0.5, 0.46, 0.23, 0.5, 0.25) : ℝ × ℝ × ℝ × ℝ × ℝ × ℝ).2.2.2.2.2
        ≤ ((1.33, 0.67, 0.62, 0.31, 0.67, 0.33) : ℝ × ℝ × ℝ × ℝ × ℝ × ℝ).2.2.2.2.2 :=
  c8_amended_monotone 0 25 300 400 ⟨by norm_num, by norm_num⟩
    ⟨by norm_num, by norm_num⟩ (by norm_num) (by norm_num) _ _
    payments_zero_rate_300 payments_zero_rate_400

/-- C2: on a first lookup (no cached rate) the retrieved rate is the value
of the last row, in file order, whose USD/CAD cell parses as a number;
blank or unparsable cells are skipped; with no parseable row the lookup
fails; in particular rows "", "1.35", "abc", "1.37" yield 1.37. -/
theorem c2_latest_rate_last_parseable :
    (∀ src : CsvSource,
        read_usd_cad src
          = if "USD/CAD" ∈ src.fieldnames then
              ((src.usdCadCells.filterMap parseCell).getLast?).elim
                (Except.error FxError.noNumeric) Except.ok
            else Except.error FxError.noColumn) ∧
      latest_usd_cad none
          ⟨["Date", "USD/CAD"], [some "", some "1.35", some "abc", some "1.37"]⟩
        = Except.ok (137/100) := by
  constructor
  · intro src
    rw [read_usd_cad, lastRate_eq_getLast]
    by_cases h : "USD/CAD" ∈ src.fieldnames
    · rw [if_pos h, if_pos h]
      cases (src.usdCadCells.filterMap parseCell).getLast? <;> rfl
    · rw [if_neg h, if_neg h]
  · show read_usd_cad _ = _
    simp +decide [read_usd_cad, lastRate, rowStep, parseFloat, parseUnsignedDecimal,
      digitsVal, digitVal, strip, stripChars]
    norm_num

example : ∀ (r : ℚ) (src src2 : CsvSource) (a : ℚ) (f t : Option String),
    convert (some r) src a f t = convert (some r) src2 a f t :=
  fun _ _ _ _ _ _ => rfl

/-- C3: the cached rate is written at most once: with a cached rate every
conversion is independent of the data source and leaves the same cached
value in place, and any call whose normalized currencies coincide leaves
the state untouched (no lookup is triggered). -/
theorem c3_cache_write_once :
    (∀ (r : ℚ) (src src2 : CsvSource) (a : ℚ) (f t : Option String),
        convert (some r) src a f t = convert (some r) src2 a f t) ∧
      (∀ (r : ℚ) (src : CsvSource) (a : ℚ) (f t : Option String),
        (convert (some r) src a f t).2 = some r) ∧
      (∀ (cached : Option ℚ) (src : CsvSource) (a : ℚ) (f t : Option String),
        normCurrency f = normCurrency t → (convert cached src a f t).2 = cached) := by
  refine ⟨fun _ _ _ _ _ _ => rfl, ?_, ?_⟩
  · intro r src a f t
    rw [convert]
    by_cases h0 : a < 0
    · rw [if_pos h0]
    · rw [if_neg h0]
      by_cases hbad : ¬(normCurrency f = "CAD" ∨ normCurrency f = "USD")
          ∨ ¬(normCurrency t = "CAD" ∨ normCurrency t = "USD")
      · rw [if_pos hbad]
      · rw [if_neg hbad]
        by_cases hft : normCurrency f = normCurrency t
        · rw [if_pos hft]
        · rw [if_neg hft]
          show (match latest_usd_cad (some r) src with
            | Except.error e => (Except.error e, some r)
            | Except.ok rate =>
                if normCurrency f = "USD" ∧ normCurrency t = "CAD" then
                  (Except.ok (round2Q (a * rate + 1e-9)), some rate)
                else if normCurrency f = "CAD" ∧ normCurrency t = "USD" then
                  (Except.ok (round2Q (a / rate + 1e-9)), some rate)
                else (Except.error FxError.unsupportedPair, some rate) : _ × _).2 = some r
          show (if normCurrency f = "USD" ∧ normCurrency t = "CAD" then
              (Except.ok (round2Q (a * r + 1e-9)), some r)
            else if normCurrency f = "CAD" ∧ normCurrency t = "USD" then
              (Except.ok (round2Q (a / r + 1e-9)), some r)
            else (Except.error FxError.unsupportedPair, some r) : _ × _).2 = some r
          by_cases h1 : normCurrency f = "USD" ∧ normCurrency t = "CAD"
          · rw [if_pos h1]
          · rw [if_neg h1]
            by_cases h2 : normCurrency f = "CAD" ∧ normCurrency t = "USD"
            · rw [if_pos h2]
            · rw [if_neg h2]
  · intro cached src a f t hft
    rw [convert]
    by_cases h0 : a < 0
    · rw [if_pos h0]
    · rw [if_neg h0]
      by_cases hbad : ¬(normCurrency f = "CAD" ∨ normCurrency f = "USD")
          ∨ ¬(normCurrency t = "CAD" ∨ normCurrency t = "USD")
      · rw [if_pos hbad]
      · rw [if_neg hbad, if_pos hft]

theorem c3_witness :
    (convert (some 2) ⟨[], []⟩ 5 (some "cad") (some " CAD ")).2 = some 2 :=
  c3_cache_write_once.2.2 (some 2) ⟨[], []⟩ 5 (some "cad") (some " CAD ") (by decide)

/-- C4: a same-currency conversion returns the amount rounded to two
decimals (with no epsilon added and no rate lookup): it succeeds for any
state of the data source, and leaves the cached state unchanged. -/
theorem c4_same_currency (cached : Option ℚ) (src : CsvSource) (a : ℚ)
    (ha : 0 ≤ a) (X : String) (hX : X = "CAD" ∨ X = "USD") :
    convert cached src a (some X) (some X) = (Except.ok (round2Q a), cached) := by
  have hn : ¬ a < 0 := not_lt.2 ha
  rcases hX with rfl | rfl <;>
    simp +decide [convert, normCurrency, toUpperStr, upperChar, strip, stripChars, hn]

theorem c4_witness :
    convert none ⟨["Date"], [some "junk"]⟩ (5/2) (some "USD") (some "USD")
      = (Except.ok (5/2), none) := by
  rw [c4_same_currency none ⟨["Date"], [some "junk"]⟩ (5/2) (by norm_num) "USD" (Or.inr rfl)]
  have : round2Q (5/2) = ((250 : ℤ) : ℚ)/100 := by
    rw [round2Q, rheQ_eq_of_bounds _ 250 (by norm_num) (by norm_num)]
  rw [this]
  norm_num

/-- C10: a missing (None) or empty currency argument is handled totally:
it normalizes to the empty string, fails the CAD/USD membership check and
the call returns the same invalid-currency error as any other unsupported
code, leaving the cached state unchanged. -/
theorem c10_missing_currency (cached : Option ℚ) (src : CsvSource) (a : ℚ)
    (ha : 0 ≤ a) :
    (∀ t : Option String,
        convert cached src a none t = (Except.error FxError.badCurrency, cached)) ∧
      (∀ f : Option String,
        convert cached src a f none = (Except.error FxError.badCurrency, cached)) ∧
      (∀ t : Option String,
        convert cached src a (some "") t = (Except.error FxError.badCurrency, cached)) := by
  have hn : ¬ a < 0 := not_lt.2 ha
  refine ⟨fun t => ?_, fun f => ?_, fun t => ?_⟩
  · rw [convert, if_neg hn, if_pos]
    left
    intro h
    rcases h with h | h <;> exact absurd h (by decide)
  · rw [convert, if_neg hn, if_pos]
    right
    intro h
    rcases h with h | h <;> exact absurd h (by decide)
  · rw [convert, if_neg hn, if_pos]
    left
    intro h
    rcases h with h | h <;> exact absurd h (by decide)

theorem c10_witness :
    convert (some (137/100)) ⟨["USD/CAD"], [some "1.35"]⟩ 7 none (some "CAD")
      = (Except.error FxError.badCurrency, some (137/100)) :=
  (c10_missing_currency (some (137/100)) ⟨["USD/CAD"], [some "1.35"]⟩ 7
    (by norm_num)).1 (some "CAD")

/-- C5: every cross-currency result and every payment amount is rounded by
first adding 1e-9 and then rounding to two decimals, and this epsilon
makes every exact half-cent value (odd multiple of 0.005) round up to the
next cent, never down. -/
theorem c5_epsilon_rounding :
    (∀ x : ℚ, (∃ k : ℤ, x = k * (1/200)) → (¬ ∃ j : ℤ, x = j * (1/100)) →
        round2Q (x + 1e-9) = x + 1/200) ∧
      (∀ x : ℝ, (∃ k : ℤ, x = k * (1/200)) → (¬ ∃ j : ℤ, x = j * (1/100)) →
        r2 x = x + 1/200) ∧
      (∀ (r : ℚ) (src : CsvSource) (a : ℚ), 0 ≤ a →
        convert (some r) src a (some "USD") (some "CAD")
            = (Except.ok (round2Q (a * r + 1e-9)), some r) ∧
          convert (some r) src a (some "CAD") (some "USD")
            = (Except.ok (round2Q (a / r + 1e-9)), some r)) ∧
      (∀ (rate : ℝ) (years : ℕ) (p : ℝ), 0 ≤ p →
        payments rate years p
          = Except.ok
              (r2 (payment_given_frequency rate years p 12),
                r2 (payment_given_frequency rate years p 24),
                r2 (payment_given_frequency rate years p 26),
                r2 (payment_given_frequency rate years p 52),
                r2 (payment_given_frequency rate years p 12 / 2),
                r2 (payment_given_frequency rate years p 12 / 4))) := by
  refine ⟨?_, ?_, ?_, fun rate years p hp => payments_ok rate years p hp⟩
  · rintro x ⟨k, rfl⟩ hno
    rcases Int.even_or_odd k with ⟨a, rfl⟩ | ⟨a, rfl⟩
    · exact absurd ⟨a, by push_cast; ring⟩ hno
    · rw [round2Q, rheQ_eq_of_bounds _ (a + 1) (by push_cast; linarith)
        (by push_cast; linarith)]
      push_cast
      ring
  · rintro x ⟨k, rfl⟩ hno
    rcases Int.even_or_odd k with ⟨a, rfl⟩ | ⟨a, rfl⟩
    · exact absurd ⟨a, by push_cast; ring⟩ hno
    · rw [r2, round2R, rheR_eq_of_bounds _ (a + 1) (by push_cast; linarith)
        (by push_cast; linarith)]
      push_cast
      ring
  · intro r src a ha
    have hn : ¬ a < 0 := not_lt.2 ha
    constructor <;>
      simp +decide [convert, normCurrency, toUpperStr, upperChar, strip, stripChars,
        latest_usd_cad, hn]

theorem c5_witness :
    round2Q ((1/200 : ℚ) + 1e-9) = 1/200 + 1/200 ∧
      r2 (1/200 : ℝ) = 1/200 + 1/200 := by
  constructor
  · apply c5_epsilon_rounding.1 (1/200) ⟨1, by norm_num⟩
    rintro ⟨j, hj⟩
    have h2 : (2 * j : ℚ) = 1 := by linarith
    have h3 : (2 * j : ℤ) = 1 := by exact_mod_cast h2
    omega
  · apply c5_epsilon_rounding.2.1 (1/200) ⟨1, by norm_num⟩
    rintro ⟨j, hj⟩
    have h2 : (2 * j : ℝ) = 1 := by linarith
    have h3 : (2 * j : ℤ) = 1 := by exact_mod_cast h2
    omega

/-- C6: a source without the USD/CAD column fails with a different error
than a source with no parseable value in that column; a failed lookup
leaves the cached rate absent, and a later call with the cache still
empty reads the (possibly new) source again. -/
theorem c6_error_conditions :
    (∀ src : CsvSource, "USD/CAD" ∉ src.fieldnames →
        read_usd_cad src = Except.error FxError.noColumn) ∧
      (∀ src : CsvSource, "USD/CAD" ∈ src.fieldnames →
        lastRate src.usdCadCells = none →
        read_usd_cad src = Except.error FxError.noNumeric) ∧
      FxError.noColumn ≠ FxError.noNumeric ∧
      (∀ (src : CsvSource) (a : ℚ) (f t : Option String) (e : FxError),
        (convert none src a f t).1 = Except.error e →
        (convert none src a f t).2 = none) ∧
      (∀ (src : CsvSource) (a r : ℚ), 0 ≤ a →
        read_usd_cad src = Except.ok r →
        convert none src a (some "USD") (some "CAD")
          = (Except.ok (round2Q (a * r + 1e-9)), some r)) := by
  refine ⟨?_, ?_, by decide, ?_, ?_⟩
  · intro src h
    rw [read_usd_cad, if_neg h]
  · intro src h hlast
    rw [read_usd_cad, if_pos h, hlast]
  · intro src a f t e h
    rw [convert] at h ⊢
    by_cases h0 : a < 0
    · rw [if_pos h0]
    · rw [if_neg h0] at h ⊢
      by_cases hbad : ¬(normCurrency f = "CAD" ∨ normCurrency f = "USD")
          ∨ ¬(normCurrency t = "CAD" ∨ normCurrency t = "USD")
      · rw [if_pos hbad]
      · rw [if_neg hbad] at h ⊢
        by_cases hft : normCurrency f = normCurrency t
        · rw [if_pos hft]
        · rw [if_neg hft] at h ⊢
          cases hlook : latest_usd_cad none src with
          | error e2 => rfl
          | ok rate =>
              rw [hlook] at h
              dsimp only at h
              exfalso
              by_cases h1 : normCurrency f = "USD" ∧ normCurrency t = "CAD"
              · rw [if_pos h1] at h
                exact Except.noConfusion h
              · rw [if_neg h1] at h
                by_cases h2 : normCurrency f = "CAD" ∧ normCurrency t = "USD"
                · rw [if_pos h2] at h
                  exact Except.noConfusion h
                · push_neg at hbad
                  obtain ⟨hf, ht⟩ := hbad
                  rcases hf with hf | hf <;> rcases ht with ht | ht <;>
                    rw [hf, ht] at hft h1 h2 <;> simp_all
  · intro src a r ha hok
    have hn : ¬ a < 0 := not_lt.2 ha
    simp +decide [convert, normCurrency, toUpperStr, upperChar, strip, stripChars,
      latest_usd_cad, hn, hok]

theorem c6_witness :
    read_usd_cad ⟨["Date"], []⟩ = Except.error FxError.noColumn ∧
      read_usd_cad ⟨["USD/CAD"], [some "abc"]⟩ = Except.error FxError.noNumeric ∧
      (convert none ⟨["Date"], []⟩ 1 (some "USD") (some "CAD")).2 = none ∧
      convert none ⟨["USD/CAD"], [some "1.37"]⟩ 2 (some "USD") (some "CAD")
        = (Except.ok (round2Q (2 * (137/100) + 1e-9)), some (137/100)) := by
  have h1 : (convert none ⟨["Date"], []⟩ 1 (some "USD") (some "CAD")).1
      = Except.error FxError.noColumn := by
    simp +decide [convert, normCurrency, toUpperStr, upperChar, strip, stripChars,
      latest_usd_cad, read_usd_cad, lastRate]
  have hok : read_usd_cad ⟨["USD/CAD"], [some "1.37"]⟩ = Except.ok (137/100) := by
    simp +decide [read_usd_cad, lastRate, rowStep, parseFloat, parseUnsignedDecimal,
      digitsVal, digitVal, strip, stripChars]
    norm_num
  exact ⟨c6_error_conditions.1 _ (by decide),
    c6_error_conditions.2.1 _ (by decide) (by decide),
    c6_error_conditions.2.2.2.1 _ 1 (some "USD") (some "CAD") FxError.noColumn h1,
    c6_error_conditions.2.2.2.2 _ 2 (137/100) (by norm_num) hok⟩
